import Mathlib

/-!
Shallow embedding of the core routines of the `live_analytics` repository
(`scripts/utils.py` with constants from `scripts/config.py`), together with
proofs about them.

Modelling conventions:
- wall-clock sleep durations are rationals (the Python constants 2.0 and 1.5
  are exact binary floats, so `ℚ` represents them faithfully);
- datetimes are integers on the epoch-seconds scale; `timedelta(days=d)` is
  `d * 86400` seconds;
- an HTTP attempt either raises a transport exception or yields a response
  with a status code; the body of a response is modelled only as far as the
  code inspects it;
- `print` diagnostics are collected as a list of strings;
- sqlite operations are modelled as explicit store-passing functions,
  emitting a trace of connection events.
-/

namespace LiveAnalytics

/-! ### Constants from `scripts/config.py` -/

/-- `RATE_LIMIT_DELAY = 2.0` (seconds). -/
def RATE_LIMIT_DELAY : ℚ := 2

/-- ` RATE_LIMIT_RETRY_DELAY = 5` (seconds). -/
def RATE_LIMIT_RETRY_DELAY : ℚ := 5

/-- `COINGECKO_FREE_TIER_DELAY = 1.5` (seconds). -/
def COINGECKO_FREE_TIER_DELAY : ℚ := 3 / 2

/-! ### `safe_api_request` (utils.py lines 207–257)

Each attempt's interaction with the network is an `Outcome`: either
`requests.get` raises (`exn`), or it returns a response with some status
code (`resp s`).  The environment is a map from attempt index to outcome.
The function produces the trace of observable events (sleeps with their
durations, requests with their attempt index) and the returned value:
`some s` for a returned response with status `s`, `none` for the
`return None` fall-through. -/

/-- Outcome of one `requests.get` call inside `safe_api_request`. -/
inductive Outcome where
  | exn : Outcome
  | resp (status : ℕ) : Outcome
deriving DecidableEq, Repr

/-- Observable event of `safe_api_request`: a blocking sleep of a given
duration in seconds, or the HTTP request of a given attempt index. -/
inductive Event where
  | sleep (duration : ℚ) : Event
  | request (attempt : ℕ) : Event
deriving DecidableEq, Repr

/-- One pass of the `for attempt in range(max_retries)` loop body and the
rest of the loop, with `fuel` the number of remaining loop iterations
(including the current one) and `attempt` the current index.  Mirrors
utils.py lines 221–257:
- CoinGecko progressive delay `3 * attempt` on retries (lines 223–226);
- the request itself (line 235);
- status 429: sleep `RATE_LIMIT_RETRY_DELAY * 2 ^ attempt`, `continue`
  (lines 241–245);
- otherwise: optional CoinGecko free-tier cooldown, return the response
  (lines 247–250);
- exception: sleep `RATE_LIMIT_DELAY` if a later attempt remains
  (lines 252–255).
The header branch (lines 228–233) only builds headers and prints; it is
not an observable event and cannot raise. -/
def cgDelay (isCoingecko : Bool) (attempt : ℕ) : List Event :=
  if isCoingecko ∧ 0 < attempt then [.sleep (3 * attempt)] else []

/-- The retry loop of `safe_api_request`; `cgDelay` above is the CoinGecko
progressive delay of lines 223–226 (on retries, sleep `3 * attempt`
seconds). -/
def safeApiGo (isCoingecko : Bool) (outcomes : ℕ → Outcome) :
    ℕ → ℕ → List Event × Option ℕ
  | 0, _ => ([], none)
  | fuel + 1, attempt =>
    let pre : List Event := cgDelay isCoingecko attempt
    match outcomes attempt with
    | .exn =>
      let post : List Event := if 0 < fuel then [.sleep RATE_LIMIT_DELAY] else []
      let rest := safeApiGo isCoingecko outcomes fuel (attempt + 1)
      (pre ++ [.request attempt] ++ post ++ rest.1, rest.2)
    | .resp s =>
      if s = 429 then
        let rest := safeApiGo isCoingecko outcomes fuel (attempt + 1)
        (pre ++ [.request attempt, .sleep (RATE_LIMIT_RETRY_DELAY * 2 ^ attempt)]
          ++ rest.1, rest.2)
      else
        (pre ++ [.request attempt]
          ++ (if isCoingecko then [.sleep COINGECKO_FREE_TIER_DELAY] else []),
         some s)

/-- `safe_api_request(url, max_retries, is_coingecko, api_key, params)`.
`max_retries` is a Python `int`, so it may be non-positive, in which case
`range(max_retries)` is empty and the function falls through to
`return None`.  The url, api key and params do not influence the control
flow modelled here (the api key only selects a header). -/
def safe_api_request (max_retries : ℤ) (is_coingecko : Bool)
    (outcomes : ℕ → Outcome) : List Event × Option ℕ :=
  safeApiGo is_coingecko outcomes max_retries.toNat 0

/-- The first non-429 response delivered by the environment among `fuel`
attempts starting at index `a`; transport exceptions deliver no response. -/
def firstNon429 (outcomes : ℕ → Outcome) : ℕ → ℕ → Option ℕ
  | 0, _ => none
  | fuel + 1, a =>
    match outcomes a with
    | .exn => firstNon429 outcomes fuel (a + 1)
    | .resp s => if s = 429 then firstNon429 outcomes fuel (a + 1) else some s

theorem safeApiGo_ret (isCG : Bool) (outcomes : ℕ → Outcome) :
    ∀ fuel a, (safeApiGo isCG outcomes fuel a).2 = firstNon429 outcomes fuel a := by
  intro fuel
  induction fuel with
  | zero => intro a; rfl
  | succ f ih =>
    intro a
    simp only [safeApiGo, firstNon429]
    cases h : outcomes a with
    | exn => simpa using ih (a + 1)
    | resp s =>
      by_cases hs : s = 429 <;> simp [hs, ih (a + 1)]

/-- Attempt indices `a, a+1, …, a+fuel-1` are the only ones that can appear
in the trace. -/
theorem safeApiGo_request_mem (isCG : Bool) (outcomes : ℕ → Outcome) :
    ∀ fuel a i, Event.request i ∈ (safeApiGo isCG outcomes fuel a).1 →
      a ≤ i ∧ i < a + fuel := by
  intro fuel
  induction fuel with
  | zero => intro a i h; simp [safeApiGo] at h
  | succ f ih =>
    intro a i h
    rw [safeApiGo] at h
    have hpre : Event.request i ∉ cgDelay isCG a := by
      unfold cgDelay; split <;> simp
    cases houtc : outcomes a with
    | exn =>
      rw [houtc] at h
      have hpost : Event.request i ∉
          (if 0 < f then [Event.sleep RATE_LIMIT_DELAY] else []) := by
        split <;> simp
      simp only [List.append_assoc, List.mem_append, hpre, hpost, List.mem_singleton,
        false_or, or_false] at h
      rcases h with h | h
      · cases h; omega
      · have := ih (a + 1) i h; omega
    | resp s =>
      rw [houtc] at h
      dsimp only at h
      by_cases hs : s = 429
      · rw [if_pos hs] at h
        simp [hpre] at h
        rcases h with h | h
        · omega
        · have := ih (a + 1) i h; omega
      · rw [if_neg hs] at h
        have hcd : Event.request i ∉
            (if isCG = true then [Event.sleep COINGECKO_FREE_TIER_DELAY] else []) := by
          split <;> simp
        simp [hpre, hcd] at h
        omega

theorem request_not_mem_cgDelay (isCG : Bool) (a i : ℕ) :
    Event.request i ∉ cgDelay isCG a := by
  unfold cgDelay; split <;> simp

/-- Unfolding of one loop iteration whose request raises an exception. -/
theorem safeApiGo_exn_eq (isCG : Bool) (outcomes : ℕ → Outcome) (f a : ℕ)
    (h : outcomes a = .exn) :
    safeApiGo isCG outcomes (f + 1) a =
      (cgDelay isCG a ++ [.request a]
        ++ (if 0 < f then [Event.sleep RATE_LIMIT_DELAY] else [])
        ++ (safeApiGo isCG outcomes f (a + 1)).1,
       (safeApiGo isCG outcomes f (a + 1)).2) := by
  rw [safeApiGo, h]

/-- Unfolding of one loop iteration whose request is answered with 429. -/
theorem safeApiGo_429_eq (isCG : Bool) (outcomes : ℕ → Outcome) (f a : ℕ)
    (h : outcomes a = .resp 429) :
    safeApiGo isCG outcomes (f + 1) a =
      (cgDelay isCG a
        ++ [.request a, .sleep (RATE_LIMIT_RETRY_DELAY * 2 ^ a)]
        ++ (safeApiGo isCG outcomes f (a + 1)).1,
       (safeApiGo isCG outcomes f (a + 1)).2) := by
  rw [safeApiGo, h]
  simp

/-- Unfolding of one loop iteration whose request is answered with a
non-429 status: the loop returns that response. -/
theorem safeApiGo_resp_eq (isCG : Bool) (outcomes : ℕ → Outcome) (f a s : ℕ)
    (h : outcomes a = .resp s) (hs : s ≠ 429) :
    safeApiGo isCG outcomes (f + 1) a =
      (cgDelay isCG a ++ [.request a]
        ++ (if isCG then [Event.sleep COINGECKO_FREE_TIER_DELAY] else []),
       some s) := by
  rw [safeApiGo, h]
  simp [hs]

theorem infix_append_lift {α : Type} {l m : List α} (pre : List α)
    (h : l <:+: m) : l <:+: pre ++ m := by
  obtain ⟨s, t, rfl⟩ := h
  exact ⟨pre ++ s, t, by simp⟩

theorem infix_append_lift2 {α : Type} {l m : List α} (p q : List α)
    (h : l <:+: m) : l <:+: p ++ q ++ m := by
  obtain ⟨s, t, rfl⟩ := h
  exact ⟨p ++ q ++ s, t, by simp⟩

theorem infix_append_lift3 {α : Type} {l m : List α} (p q r : List α)
    (h : l <:+: m) : l <:+: p ++ q ++ r ++ m := by
  obtain ⟨s, t, rfl⟩ := h
  exact ⟨p ++ q ++ r ++ s, t, by simp⟩

/-- Every executed 429 attempt is followed, inside the very trace, by a
sleep of exactly `RATE_LIMIT_RETRY_DELAY * 2 ^ attempt` seconds, placed
immediately after the request (hence before any later attempt). -/
theorem safeApiGo_429_sleep (isCG : Bool) (outcomes : ℕ → Outcome) :
    ∀ fuel a i, outcomes i = .resp 429 →
      Event.request i ∈ (safeApiGo isCG outcomes fuel a).1 →
      [Event.request i, Event.sleep (RATE_LIMIT_RETRY_DELAY * 2 ^ i)]
        <:+: (safeApiGo isCG outcomes fuel a).1 := by
  intro fuel
  induction fuel with
  | zero => intro a i _ h; simp [safeApiGo] at h
  | succ f ih =>
    intro a i h429 hmem
    cases houtc : outcomes a with
    | exn =>
      rw [safeApiGo_exn_eq isCG outcomes f a houtc] at hmem ⊢
      have hpost : Event.request i ∉
          (if 0 < f then [Event.sleep RATE_LIMIT_DELAY] else []) := by
        split <;> simp
      simp [request_not_mem_cgDelay, hpost] at hmem
      rcases hmem with hmem | hmem
      · subst hmem; simp [houtc] at h429
      · exact infix_append_lift3 _ _ _ (ih (a + 1) i h429 hmem)
    | resp s =>
      by_cases hs : s = 429
      · subst hs
        rw [safeApiGo_429_eq isCG outcomes f a houtc] at hmem ⊢
        by_cases hia : i = a
        · subst hia
          exact ⟨cgDelay isCG i, (safeApiGo isCG outcomes f (i + 1)).1, by simp⟩
        · simp [request_not_mem_cgDelay, hia] at hmem
          exact infix_append_lift2 _ _ (ih (a + 1) i h429 hmem)
      · rw [safeApiGo_resp_eq isCG outcomes f a s houtc hs] at hmem
        have hcd : Event.request i ∉
            (if isCG then [Event.sleep COINGECKO_FREE_TIER_DELAY] else []) := by
          split <;> simp
        simp [request_not_mem_cgDelay, hcd] at hmem
        subst hmem
        simp [houtc, hs] at h429

/-- When an attempt at index `a ≥ 1` against CoinGecko is about to run and
at least one loop iteration remains, the trace starts with the progressive
delay followed by the request. -/
theorem safeApiGo_head_cg (outcomes : ℕ → Outcome) (f a : ℕ)
    (hf : 0 < f) (ha : 0 < a) :
    ∃ tail, (safeApiGo true outcomes f a).1 =
      Event.sleep (3 * a) :: Event.request a :: tail := by
  obtain ⟨f', rfl⟩ : ∃ f', f = f' + 1 := ⟨f - 1, by omega⟩
  have hcg : cgDelay true a = [Event.sleep (3 * a)] := by
    simp [cgDelay, ha]
  cases houtc : outcomes a with
  | exn =>
    refine ⟨(if 0 < f' then [Event.sleep RATE_LIMIT_DELAY] else [])
      ++ (safeApiGo true outcomes f' (a + 1)).1, ?_⟩
    rw [safeApiGo_exn_eq true outcomes f' a houtc, hcg]
    simp
  | resp s =>
    by_cases hs : s = 429
    · subst hs
      refine ⟨Event.sleep (RATE_LIMIT_RETRY_DELAY * 2 ^ a)
        :: (safeApiGo true outcomes f' (a + 1)).1, ?_⟩
      rw [safeApiGo_429_eq true outcomes f' a houtc, hcg]
      simp
    · refine ⟨[Event.sleep COINGECKO_FREE_TIER_DELAY], ?_⟩
      rw [safeApiGo_resp_eq true outcomes f' a s houtc hs, hcg]
      simp

/-- Every executed CoinGecko attempt with index ≥ 1 is immediately preceded
in the trace by the linear-backoff sleep of `3 * attempt` seconds. -/
theorem safeApiGo_cg_linear (outcomes : ℕ → Outcome) :
    ∀ fuel a i, 0 < i →
      Event.request i ∈ (safeApiGo true outcomes fuel a).1 →
      [Event.sleep (3 * i), Event.request i]
        <:+: (safeApiGo true outcomes fuel a).1 := by
  intro fuel
  induction fuel with
  | zero => intro a i _ h; simp [safeApiGo] at h
  | succ f ih =>
    intro a i hi hmem
    by_cases hia : i = a
    · subst hia
      obtain ⟨tail, htail⟩ := safeApiGo_head_cg outcomes (f + 1) i (by omega) hi
      rw [htail]
      exact ⟨[], tail, by simp⟩
    · cases houtc : outcomes a with
      | exn =>
        rw [safeApiGo_exn_eq true outcomes f a houtc] at hmem ⊢
        have hpost : Event.request i ∉
            (if 0 < f then [Event.sleep RATE_LIMIT_DELAY] else []) := by
          split <;> simp
        simp [request_not_mem_cgDelay, hpost, hia] at hmem
        exact infix_append_lift3 _ _ _ (ih (a + 1) i hi hmem)
      | resp s =>
        by_cases hs : s = 429
        · subst hs
          rw [safeApiGo_429_eq true outcomes f a houtc] at hmem ⊢
          simp [request_not_mem_cgDelay, hia] at hmem
          exact infix_append_lift2 _ _ (ih (a + 1) i hi hmem)
        · rw [safeApiGo_resp_eq true outcomes f a s houtc hs] at hmem
          simp [request_not_mem_cgDelay, hia] at hmem

/-- A CoinGecko attempt `j` answered 429, followed by an executed attempt
`j + 1`, leaves in the trace the exponential rate-limit sleep and then the
linear progressive sleep, in that order, between the two requests. -/
theorem safeApiGo_cg_429_then_linear (outcomes : ℕ → Outcome) :
    ∀ fuel a j, a ≤ j → outcomes j = .resp 429 →
      Event.request (j + 1) ∈ (safeApiGo true outcomes fuel a).1 →
      [Event.request j, Event.sleep (RATE_LIMIT_RETRY_DELAY * 2 ^ j),
       Event.sleep (3 * ((j + 1 : ℕ) : ℚ)), Event.request (j + 1)]
        <:+: (safeApiGo true outcomes fuel a).1 := by
  intro fuel
  induction fuel with
  | zero => intro a j _ _ h; simp [safeApiGo] at h
  | succ f ih =>
    intro a j haj h429 hmem
    by_cases hja : j = a
    · subst hja
      rw [safeApiGo_429_eq true outcomes f j h429] at hmem ⊢
      have hne : ¬ (j + 1 = j) := by omega
      simp [request_not_mem_cgDelay, hne] at hmem
      have hf : 0 < f := by
        cases f with
        | zero => simp [safeApiGo] at hmem
        | succ f' => omega
      obtain ⟨tail, htail⟩ := safeApiGo_head_cg outcomes f (j + 1) hf (by omega)
      rw [htail]
      exact ⟨cgDelay true j, tail, by simp⟩
    · have haj' : a + 1 ≤ j := by omega
      have hne : ¬ (j + 1 = a) := by omega
      cases houtc : outcomes a with
      | exn =>
        rw [safeApiGo_exn_eq true outcomes f a houtc] at hmem ⊢
        have hpost : Event.request (j + 1) ∉
            (if 0 < f then [Event.sleep RATE_LIMIT_DELAY] else []) := by
          split <;> simp
        simp [request_not_mem_cgDelay, hpost, hne] at hmem
        exact infix_append_lift3 _ _ _ (ih (a + 1) j haj' h429 hmem)
      | resp s =>
        by_cases hs : s = 429
        · subst hs
          rw [safeApiGo_429_eq true outcomes f a houtc] at hmem ⊢
          simp [request_not_mem_cgDelay, hne] at hmem
          exact infix_append_lift2 _ _ (ih (a + 1) j haj' h429 hmem)
        · rw [safeApiGo_resp_eq true outcomes f a s houtc hs] at hmem
          simp [request_not_mem_cgDelay, hne] at hmem

/-- Every executed exception attempt that is not the last scheduled attempt
is followed immediately by the fixed `RATE_LIMIT_DELAY` inter-attempt
sleep. -/
theorem safeApiGo_exn_sleep (isCG : Bool) (outcomes : ℕ → Outcome) :
    ∀ fuel a i, outcomes i = .exn →
      Event.request i ∈ (safeApiGo isCG outcomes fuel a).1 →
      i + 1 < a + fuel →
      [Event.request i, Event.sleep RATE_LIMIT_DELAY]
        <:+: (safeApiGo isCG outcomes fuel a).1 := by
  intro fuel
  induction fuel with
  | zero => intro a i _ h; simp [safeApiGo] at h
  | succ f ih =>
    intro a i hexn hmem hlt
    cases houtc : outcomes a with
    | exn =>
      rw [safeApiGo_exn_eq isCG outcomes f a houtc] at hmem ⊢
      have hpost : Event.request i ∉
          (if 0 < f then [Event.sleep RATE_LIMIT_DELAY] else []) := by
        split <;> simp
      simp [request_not_mem_cgDelay, hpost] at hmem
      rcases hmem with hmem | hmem
      · subst hmem
        have hf : 0 < f := by omega
        rw [if_pos hf]
        exact ⟨cgDelay isCG i, (safeApiGo isCG outcomes f (i + 1)).1, by simp⟩
      · exact infix_append_lift3 _ _ _ (ih (a + 1) i hexn hmem (by omega))
    | resp s =>
      by_cases hs : s = 429
      · subst hs
        rw [safeApiGo_429_eq isCG outcomes f a houtc] at hmem ⊢
        by_cases hia : i = a
        · subst hia; simp [houtc] at hexn
        · simp [request_not_mem_cgDelay, hia] at hmem
          exact infix_append_lift2 _ _ (ih (a + 1) i hexn hmem (by omega))
      · rw [safeApiGo_resp_eq isCG outcomes f a s houtc hs] at hmem
        have hcd : Event.request i ∉
            (if isCG then [Event.sleep COINGECKO_FREE_TIER_DELAY] else []) := by
          split <;> simp
        simp [request_not_mem_cgDelay, hcd] at hmem
        subst hmem
        simp [houtc] at hexn

/-- Exhausting the budget on exceptions and 429s yields no response. -/
theorem firstNon429_none (outcomes : ℕ → Outcome) :
    ∀ fuel a,
      (∀ i, a ≤ i → i < a + fuel →
        outcomes i = .exn ∨ outcomes i = .resp 429) →
      firstNon429 outcomes fuel a = none := by
  intro fuel
  induction fuel with
  | zero => intro a _; rfl
  | succ f ih =>
    intro a hall
    rw [firstNon429]
    rcases hall a (le_refl a) (by omega) with h | h <;> rw [h]
    · exact ih (a + 1) fun i h1 h2 => hall i (by omega) (by omega)
    · simp only [if_pos rfl]
      exact ih (a + 1) fun i h1 h2 => hall i (by omega) (by omega)

/-- Concrete environment for witnesses: attempt 0 is rate-limited,
attempt 1 raises a transport exception, attempt 2 answers 200. -/
def wEnv : ℕ → Outcome := fun n =>
  if n = 0 then .resp 429 else if n = 1 then .exn else .resp 200

/-- Concrete environment for witnesses: attempt 0 raises, every later
attempt is rate-limited. -/
def wEnvExhaust : ℕ → Outcome := fun n =>
  if n = 0 then .exn else .resp 429

/-- C2: whenever an attempt of `safe_api_request` receives an HTTP 429
response, the trace contains, immediately after that request (hence before
any later attempt), a sleep of `RATE_LIMIT_RETRY_DELAY * 2 ^ attempt`
seconds — in particular at least `base_delay * 2 ^ attempt` — and the
function returns the first non-429 response obtained within the
`max_retries` attempt budget. -/
theorem claim_C2 (max_retries : ℤ) (is_cg : Bool) (outcomes : ℕ → Outcome)
    (i : ℕ) (h429 : outcomes i = .resp 429)
    (hmem : Event.request i ∈ (safe_api_request max_retries is_cg outcomes).1) :
    [Event.request i, Event.sleep (RATE_LIMIT_RETRY_DELAY * 2 ^ i)]
      <:+: (safe_api_request max_retries is_cg outcomes).1 ∧
    (safe_api_request max_retries is_cg outcomes).2
      = firstNon429 outcomes max_retries.toNat 0 :=
  ⟨safeApiGo_429_sleep is_cg outcomes max_retries.toNat 0 i h429 hmem,
   safeApiGo_ret is_cg outcomes max_retries.toNat 0⟩

/-- Witness for C2 at a concrete input: three attempts, the first
rate-limited. -/
theorem claim_C2_witness :
    [Event.request 0, Event.sleep (RATE_LIMIT_RETRY_DELAY * 2 ^ 0)]
      <:+: (safe_api_request 3 false wEnv).1 ∧
    (safe_api_request 3 false wEnv).2 = firstNon429 wEnv (3 : ℤ).toNat 0 :=
  claim_C2 3 false wEnv 0 rfl (by decide)

/-- C6: transport-level exceptions are caught inside the loop (the
modelled function always returns a value rather than propagating).  On
every call, each executed exception attempt that is not the last
scheduled one is followed immediately by the fixed `RATE_LIMIT_DELAY`
inter-attempt sleep — whatever the other attempts do; and if every
scheduled attempt ends in a transport fault or a 429 response, the
function returns the `None` sentinel. -/
theorem claim_C6 (max_retries : ℤ) (is_cg : Bool) (outcomes : ℕ → Outcome) :
    ((∀ i, i < max_retries.toNat →
        outcomes i = .exn ∨ outcomes i = .resp 429) →
      (safe_api_request max_retries is_cg outcomes).2 = none) ∧
    (∀ i, outcomes i = .exn →
      Event.request i ∈ (safe_api_request max_retries is_cg outcomes).1 →
      i + 1 < max_retries.toNat →
      [Event.request i, Event.sleep RATE_LIMIT_DELAY]
        <:+: (safe_api_request max_retries is_cg outcomes).1) := by
  constructor
  · intro hall
    rw [safe_api_request, safeApiGo_ret]
    exact firstNon429_none outcomes max_retries.toNat 0
      (fun i h1 h2 => hall i (by omega))
  · intro i hexn hmem hlt
    exact safeApiGo_exn_sleep is_cg outcomes max_retries.toNat 0 i hexn hmem
      (by omega)

/-- Witness for C6 at concrete inputs: the exhaustion wing on a run of one
exception and one 429; the inter-attempt-sleep wing on a run whose
exception attempt 1 is followed by a successful attempt 2. -/
theorem claim_C6_witness :
    (safe_api_request 2 false wEnvExhaust).2 = none ∧
    [Event.request 1, Event.sleep RATE_LIMIT_DELAY]
      <:+: (safe_api_request 3 false wEnv).1 :=
  ⟨(claim_C6 2 false wEnvExhaust).1 (by decide),
   (claim_C6 3 false wEnv).2 1 rfl (by decide) (by decide)⟩

/-- C7: with the CoinGecko flag set, every executed attempt after the
first is immediately preceded by a linear-backoff sleep of
`3 * attempt_index` seconds (3 s before attempt 1, 6 s before attempt 2,
…), and when the preceding attempt was answered 429 this sleep appears in
addition to — directly after — that attempt's exponential rate-limit
sleep. -/
theorem claim_C7 (max_retries : ℤ) (outcomes : ℕ → Outcome) (i : ℕ)
    (hi : 0 < i)
    (hmem : Event.request i ∈ (safe_api_request max_retries true outcomes).1) :
    [Event.sleep (3 * i), Event.request i]
      <:+: (safe_api_request max_retries true outcomes).1 ∧
    (outcomes (i - 1) = .resp 429 →
      [Event.request (i - 1),
       Event.sleep (RATE_LIMIT_RETRY_DELAY * 2 ^ (i - 1)),
       Event.sleep (3 * i), Event.request i]
        <:+: (safe_api_request max_retries true outcomes).1) := by
  constructor
  · exact safeApiGo_cg_linear outcomes max_retries.toNat 0 i hi hmem
  · intro h429
    obtain ⟨j, rfl⟩ : ∃ j, i = j + 1 := ⟨i - 1, by omega⟩
    simpa using safeApiGo_cg_429_then_linear outcomes max_retries.toNat 0 j
      (by omega) (by simpa using h429) hmem

/-- Witness for C7 at a concrete input: CoinGecko target, attempt 0
rate-limited, attempt 1 executed. -/
theorem claim_C7_witness :
    [Event.sleep (3 * (1 : ℕ)), Event.request 1]
      <:+: (safe_api_request 3 true wEnv).1 ∧
    (wEnv (1 - 1) = .resp 429 →
      [Event.request (1 - 1),
       Event.sleep (RATE_LIMIT_RETRY_DELAY * 2 ^ (1 - 1)),
       Event.sleep (3 * (1 : ℕ)), Event.request 1]
        <:+: (safe_api_request 3 true wEnv).1) :=
  claim_C7 3 wEnv 1 (by decide) (by decide)

/-- C10: with `max_retries ≤ 0` the attempt loop body never runs: no
request is issued, no sleep happens, and `None` is returned. -/
theorem claim_C10 (max_retries : ℤ) (is_cg : Bool) (outcomes : ℕ → Outcome)
    (h : max_retries ≤ 0) :
    (safe_api_request max_retries is_cg outcomes).1 = [] ∧
    (safe_api_request max_retries is_cg outcomes).2 = none := by
  have h0 : max_retries.toNat = 0 := Int.toNat_of_nonpos h
  rw [safe_api_request, h0]
  exact ⟨rfl, rfl⟩

/-- Witness for C10 at a concrete input: `max_retries = -1`. -/
theorem claim_C10_witness :
    (safe_api_request (-1) false wEnv).1 = [] ∧
    (safe_api_request (-1) false wEnv).2 = none :=
  claim_C10 (-1) false wEnv (by decide)

/-! ### `validate_dataframe` (utils.py lines 260–280) -/

/-- The slice of a pandas DataFrame that `validate_dataframe` inspects:
its column names and its number of rows.  (`df.empty` is true when either
axis has length 0.) -/
structure DataFrame where
  columns : List String
  nrows : ℕ
deriving DecidableEq, Repr

/-- `df.empty`: true precisely when either axis has length 0. -/
def DataFrame.empty (df : DataFrame) : Bool :=
  df.nrows == 0 || df.columns.isEmpty

/-- `validate_dataframe(df, required_columns)` (utils.py lines 260–280).
`df` may be Python `None`; `if required_columns:` is Python truthiness,
which is false both for `None` and for the empty list. -/
def validate_dataframe (df : Option DataFrame)
    (required_columns : Option (List String)) : Bool :=
  match df with
  | none => false
  | some d =>
    if d.empty then false
    else
      match required_columns with
      | none => true
      | some cols =>
        if cols.isEmpty then true
        else
          let missing := cols.filter (fun c => !(d.columns.contains c))
          if !missing.isEmpty then false else true

/-- C9: `validate_dataframe` accepts exactly the present (non-`None`),
non-empty frames all of whose listed required columns are present; in
particular a non-empty frame with no required-columns list is always
accepted. -/
theorem claim_C9 (df : Option DataFrame) (rc : Option (List String)) :
    validate_dataframe df rc = true ↔
      ∃ d, df = some d ∧ d.empty = false ∧
        ∀ c ∈ rc.getD [], c ∈ d.columns := by
  cases df with
  | none => simp [validate_dataframe]
  | some d =>
    by_cases he : d.empty
    · simp [validate_dataframe, he]
    · cases rc with
      | none => simp [validate_dataframe, he, Bool.not_eq_true _ ▸ he]
      | some cols =>
        by_cases hc : cols.isEmpty
        · rw [List.isEmpty_iff] at hc
          simp [validate_dataframe, he, hc]
        · simp [validate_dataframe, he, hc, List.filter_eq_nil_iff,
            List.isEmpty_iff]

/-! ### `fetch_pool_chart_data` and `_process_timestamp_column`
(utils.py lines 23–107)

Datetimes live on the epoch-seconds scale as integers.  A record's
`timestamp` field is modelled by how the two pandas interpretations behave
on it; the payload of a response is modelled as far as the code inspects
it (dict with a `data` key, list of records, presence of a `timestamp`
column). -/

/-- A parsed datetime: wall-clock value (epoch-seconds scale) plus an
optional timezone offset; `tz_localize(None)` drops the timezone and keeps
the wall-clock value. -/
structure PDT where
  wall : ℤ
  tz : Option ℤ
deriving DecidableEq, Repr

/-- A record's `timestamp` field, described by the behaviour of the two
parses the code attempts: `asEpoch` is `pd.to_datetime(x, unit='s')`
(numeric epoch-seconds, always tz-naive), `asGeneric` is plain
`pd.to_datetime(x)` (generic date parsing, possibly tz-aware); `none`
means that interpretation raises. -/
structure TsField where
  asEpoch : Option ℤ
  asGeneric : Option PDT
deriving DecidableEq, Repr

/-- One record of the per-pool chart payload: its `timestamp` field plus
the numeric columns the API returns. -/
structure Row where
  ts : TsField
  apy : ℚ
  tvlUsd : ℚ
deriving DecidableEq, Repr

/-- The parsed JSON body of a chart response, as far as the code inspects
it: a list of records each carrying a timestamp field, a list of `k`
records without a `timestamp` column, an object (with or without a `data`
key), or anything else. -/
inductive JVal where
  | rows (rs : List Row) : JVal
  | rowsNoTs (k : ℕ) : JVal
  | dict (dataField : Option JVal) : JVal
  | other : JVal

/-- `pd.to_datetime(df['timestamp'], unit='s')` applied to the whole
column: succeeds iff the numeric interpretation succeeds on every entry,
and the results are tz-naive. -/
def epochParse (col : List TsField) : Option (List PDT) :=
  (col.mapM TsField.asEpoch).map (List.map fun s => ⟨s, none⟩)

/-- Plain `pd.to_datetime(df['timestamp'])` applied to the whole column:
succeeds iff the generic interpretation succeeds on every entry. -/
def genericParse (col : List TsField) : Option (List PDT) :=
  col.mapM TsField.asGeneric

/-- `df.index.tz` after `set_index('date')`: the column-level timezone,
taken from the first entry (pandas produces a homogeneous tz for a
tz-aware parse). -/
def indexTz (dates : List PDT) : Option ℤ :=
  match dates with
  | [] => none
  | d :: _ => d.tz

/-- utils.py lines 104–105: if the index is tz-aware, strip the timezone
(`tz_localize(None)` keeps wall-clock values). -/
def stripTz (dates : List PDT) : List PDT :=
  match indexTz dates with
  | some _ => dates.map fun d => ⟨d.wall, none⟩
  | none => dates

/-- `_process_timestamp_column(df, pool_name)` (utils.py lines 82–107):
try the numeric epoch-seconds interpretation, fall back to the generic
date interpretation, and if both raise, print a diagnostic naming the
pool and return `None`.  On success the parsed dates become the index and
are tz-stripped.  Returns the printed diagnostics and the date index. -/
def _process_timestamp_column (pool_name : String) (col : List TsField) :
    List String × Option (List PDT) :=
  match epochParse col with
  | some dates => ([], some (stripTz dates))
  | none =>
    match genericParse col with
    | some dates => ([], some (stripTz dates))
    | none =>
      (["Could not parse timestamp format for pool " ++ pool_name], none)

/-- Outcome of one `requests.get` inside `fetch_pool_chart_data`:
either an exception, or a response with a status and a parsed body. -/
inductive ChartResp where
  | exn : ChartResp
  | ok (status : ℕ) (body : JVal) : ChartResp

/-- utils.py lines 51–52: unwrap a dict body carrying a `data` key, once. -/
def unwrapData : JVal → JVal
  | .dict (some inner) => inner
  | v => v

/-- utils.py lines 48–72, the 200-status body handling: unwrap, require a
non-empty list with a `timestamp` column, process the timestamp column,
and keep the records from the last `days` days (`df[df.index >=
cutoff_date]` — a lower bound only). -/
def handleBody (display_name : String) (days now : ℤ) (body : JVal) :
    List String × Option (List (ℤ × Row)) :=
  match unwrapData body with
  | .rows rs =>
    if 0 < rs.length then
      match _process_timestamp_column display_name (rs.map Row.ts) with
      | (logs, none) => (logs, none)
      | (logs, some dates) =>
        let cutoff := now - days * 86400
        let kept := (dates.zip rs).filter fun p => cutoff ≤ p.1.wall
        (logs ++ ["Successfully fetched " ++ toString kept.length
            ++ " data points for " ++ display_name],
         some (kept.map fun p => (p.1.wall, p.2)))
    else (["Unexpected data format for " ++ display_name], none)
  | .rowsNoTs k =>
    if 0 < k then (["No timestamp found in data for " ++ display_name], none)
    else (["Unexpected data format for " ++ display_name], none)
  | _ => (["Unexpected data format for " ++ display_name], none)

/-- `fetch_pool_chart_data(pool_id, pool_name, days)` (utils.py 23–79).
`now` is `datetime.now()` at line 62 on the epoch-seconds scale; `resp1`
is the first `requests.get`, `resp2` the single synchronous retry used
only after a 429 (lines 43–46).  Every non-200 final status, exception or
malformed payload yields the `None` sentinel with a diagnostic. -/
def fetch_pool_chart_data (display_name : String) (days now : ℤ)
    (resp1 resp2 : ChartResp) : List String × Option (List (ℤ × Row)) :=
  match resp1 with
  | .exn => (["Error fetching chart data for " ++ display_name], none)
  | .ok st1 body1 =>
    if st1 = 429 then
      match resp2 with
      | .exn => (["Error fetching chart data for " ++ display_name], none)
      | .ok st2 body2 =>
        if st2 = 200 then handleBody display_name days now body2
        else (["Error fetching chart data for " ++ display_name], none)
    else
      if st1 = 200 then handleBody display_name days now body1
      else (["Error fetching chart data for " ++ display_name], none)

theorem ptc_epoch_eq (pool_name : String) (col : List TsField)
    (dates : List PDT) (he : epochParse col = some dates) :
    _process_timestamp_column pool_name col = ([], some (stripTz dates)) := by
  unfold _process_timestamp_column
  rw [he]

theorem ptc_generic_eq (pool_name : String) (col : List TsField)
    (dates : List PDT) (he : epochParse col = none)
    (hg : genericParse col = some dates) :
    _process_timestamp_column pool_name col = ([], some (stripTz dates)) := by
  unfold _process_timestamp_column
  rw [he, hg]

theorem ptc_none_eq (pool_name : String) (col : List TsField)
    (he : epochParse col = none) (hg : genericParse col = none) :
    _process_timestamp_column pool_name col =
      (["Could not parse timestamp format for pool " ++ pool_name], none) := by
  unfold _process_timestamp_column
  rw [he, hg]

theorem filter_wall_map (cutoff : ℤ) (l : List (PDT × Row)) :
    ((l.filter fun p => cutoff ≤ p.1.wall).map fun p => (p.1.wall, p.2)) =
      (l.map fun p => (p.1.wall, p.2)).filter fun p => cutoff ≤ p.1 := by
  induction l with
  | nil => rfl
  | cons x xs ih =>
    by_cases hx : cutoff ≤ x.1.wall
    · simp [hx, ih]
    · simp [hx, ih]

theorem fetch_200_eq (name : String) (days now : ℤ) (body : JVal)
    (resp2 : ChartResp) :
    fetch_pool_chart_data name days now (.ok 200 body) resp2 =
      handleBody name days now body := by
  simp [fetch_pool_chart_data]

theorem handleBody_rows_none (name : String) (days now : ℤ) (rs : List Row)
    (logs : List String) (hne : rs ≠ [])
    (hp : _process_timestamp_column name (rs.map Row.ts) = (logs, none)) :
    handleBody name days now (.rows rs) = (logs, none) := by
  have hlen : 0 < rs.length := List.length_pos.mpr hne
  simp [handleBody, unwrapData, hlen, hp]

theorem handleBody_rows_some (name : String) (days now : ℤ) (rs : List Row)
    (logs : List String) (dates : List PDT) (hne : rs ≠ [])
    (hp : _process_timestamp_column name (rs.map Row.ts) = (logs, some dates)) :
    handleBody name days now (.rows rs) =
      (logs ++ ["Successfully fetched "
          ++ toString ((dates.zip rs).filter fun p =>
              now - days * 86400 ≤ p.1.wall).length
          ++ " data points for " ++ name],
       some (((dates.zip rs).filter fun p => now - days * 86400 ≤ p.1.wall).map
          fun p => (p.1.wall, p.2))) := by
  have hlen : 0 < rs.length := List.length_pos.mpr hne
  simp [handleBody, unwrapData, hlen, hp]

/-- C5: the timestamp normalization attempts the numeric epoch-seconds
interpretation first and the generic date interpretation second; it
returns the `None` sentinel iff both interpretations fail, and in that
case its only diagnostic names the failing pool; lifted to the fetch
routine, a 200 response carrying non-empty records whose timestamps defeat
both interpretations yields the `None` sentinel together with that
diagnostic. -/
theorem claim_C5 (pool_name : String) (col : List TsField) :
    (∀ dates, epochParse col = some dates →
      _process_timestamp_column pool_name col = ([], some (stripTz dates))) ∧
    (epochParse col = none → ∀ dates, genericParse col = some dates →
      _process_timestamp_column pool_name col = ([], some (stripTz dates))) ∧
    ((_process_timestamp_column pool_name col).2 = none ↔
      epochParse col = none ∧ genericParse col = none) ∧
    ((_process_timestamp_column pool_name col).2 = none →
      (_process_timestamp_column pool_name col).1 =
        ["Could not parse timestamp format for pool " ++ pool_name]) ∧
    (∀ rs : List Row, rs ≠ [] → rs.map Row.ts = col →
      epochParse col = none → genericParse col = none →
      ∀ days now resp2,
        (fetch_pool_chart_data pool_name days now
            (.ok 200 (.rows rs)) resp2).2 = none ∧
        ("Could not parse timestamp format for pool " ++ pool_name) ∈
          (fetch_pool_chart_data pool_name days now
            (.ok 200 (.rows rs)) resp2).1) := by
  refine ⟨?_, ?_, ?_, ?_, ?_⟩
  · intro dates h
    exact ptc_epoch_eq pool_name col dates h
  · intro he dates hg
    exact ptc_generic_eq pool_name col dates he hg
  · constructor
    · intro hn
      cases he : epochParse col with
      | some dates => rw [ptc_epoch_eq pool_name col dates he] at hn; cases hn
      | none =>
        cases hg : genericParse col with
        | some dates =>
          rw [ptc_generic_eq pool_name col dates he hg] at hn; cases hn
        | none => exact ⟨rfl, rfl⟩
    · rintro ⟨he, hg⟩
      rw [ptc_none_eq pool_name col he hg]
  · intro hn
    cases he : epochParse col with
    | some dates => rw [ptc_epoch_eq pool_name col dates he] at hn; cases hn
    | none =>
      cases hg : genericParse col with
      | some dates =>
        rw [ptc_generic_eq pool_name col dates he hg] at hn; cases hn
      | none => rw [ptc_none_eq pool_name col he hg]
  · intro rs hne hcol he hg days now resp2
    subst hcol
    rw [fetch_200_eq,
      handleBody_rows_none pool_name days now rs _ hne (ptc_none_eq _ _ he hg)]
    exact ⟨rfl, List.mem_singleton.mpr rfl⟩

/-- A timestamp field defeating both interpretations, for the C5
witness. -/
def badTs : TsField := ⟨none, none⟩

/-- Witness for C5 at a concrete input: a single record whose timestamp
parses under neither interpretation. -/
theorem claim_C5_witness :
    (_process_timestamp_column "USDC" [badTs]).2 = none ∧
    (_process_timestamp_column "USDC" [badTs]).1 =
      ["Could not parse timestamp format for pool " ++ "USDC"] ∧
    (fetch_pool_chart_data "USDC" 360 1000000
        (.ok 200 (.rows [⟨badTs, 0, 0⟩])) .exn).2 = none := by
  have h := claim_C5 "USDC" [badTs]
  have hn : (_process_timestamp_column "USDC" [badTs]).2 = none :=
    h.2.2.1.mpr ⟨rfl, rfl⟩
  exact ⟨hn, h.2.2.2.1 hn,
    (h.2.2.2.2 [⟨badTs, 0, 0⟩] (by simp) rfl rfl rfl 360 1000000 .exn).1⟩

/-- The table property claim C1 asserts, stated from the spec's words:
every returned date lies within the window `[now − days, now]`, and the
date index is strictly increasing (sorted ascending with no duplicate
dates). -/
def chartTableClaim (days now : ℤ) (t : List (ℤ × Row)) : Prop :=
  (∀ p ∈ t, now - days * 86400 ≤ p.1 ∧ p.1 ≤ now) ∧
  t.Pairwise (fun p q => p.1 < q.1)

/-- Counterexample to C1 as stated: a 200 response with two parseable
records, the first dated beyond `now` and the second dated earlier than
the first.  The code keeps both (it applies no upper bound) and preserves
the payload order (it never sorts), so the returned table violates both
the `[now − days, now]` window and the sortedness asserted by the claim. -/
theorem claim_C1_counterexample :
    (fetch_pool_chart_data "USDC" 1 172800
        (.ok 200 (.rows [⟨⟨some 172900, none⟩, 0, 0⟩,
                         ⟨⟨some 100000, none⟩, 0, 0⟩])) .exn).2 =
      some [(172900, ⟨⟨some 172900, none⟩, 0, 0⟩),
            (100000, ⟨⟨some 100000, none⟩, 0, 0⟩)] ∧
    ¬ chartTableClaim 1 172800
        [(172900, ⟨⟨some 172900, none⟩, 0, 0⟩),
         (100000, ⟨⟨some 100000, none⟩, 0, 0⟩)] := by
  constructor
  · rfl
  · rintro ⟨hwin, -⟩
    have h := (hwin (172900, ⟨⟨some 172900, none⟩, 0, 0⟩) (by simp)).2
    exact absurd h (by decide)

/-- C1 (amended): for a 200 response whose payload is a non-empty record
list with a successfully normalized timestamp column, the fetch routine
returns exactly the subset of the indexed records whose date is at least
`now − days` (no upper bound is applied), in payload order; consequently
the returned index is strictly increasing — sorted ascending with no
duplicate dates — whenever the payload's normalized dates are. -/
theorem claim_C1 (name : String) (days now : ℤ) (rs : List Row)
    (dates : List PDT) (resp2 : ChartResp) (hne : rs ≠ [])
    (hp : _process_timestamp_column name (rs.map Row.ts) = ([], some dates)) :
    ∃ t : List (ℤ × Row), (fetch_pool_chart_data name days now
        (.ok 200 (.rows rs)) resp2).2 = some t ∧
      t = ((dates.zip rs).map fun p => (p.1.wall, p.2)).filter
            (fun p => now - days * 86400 ≤ p.1) ∧
      (∀ p ∈ t, now - days * 86400 ≤ p.1) ∧
      (((dates.zip rs).map fun p => (p.1.wall, p.2)).Pairwise
          (fun p q => p.1 < q.1) →
        t.Pairwise fun p q => p.1 < q.1) := by
  rw [fetch_200_eq, handleBody_rows_some name days now rs [] dates hne hp]
  refine ⟨_, rfl, ?_, ?_, ?_⟩
  · exact filter_wall_map (now - days * 86400) (dates.zip rs)
  · intro p hp'
    rcases List.mem_map.1 hp' with ⟨q, hq, rfl⟩
    simpa using List.of_mem_filter hq
  · intro hpw
    exact hpw.sublist ((List.filter_sublist _).map _)

/-- Witness for the amended C1 at a concrete input: one record inside the
window. -/
theorem claim_C1_witness :
    ∃ t : List (ℤ × Row), (fetch_pool_chart_data "USDC" 1 172800
        (.ok 200 (.rows [⟨⟨some 100000, none⟩, 0, 0⟩])) .exn).2 = some t ∧
      t = ((([⟨100000, none⟩] : List PDT).zip
              ([⟨⟨some 100000, none⟩, 0, 0⟩] : List Row)).map
            fun p => (p.1.wall, p.2)).filter
            (fun p => 172800 - 1 * 86400 ≤ p.1) ∧
      (∀ p ∈ t, 172800 - 1 * 86400 ≤ p.1) ∧
      (((([⟨100000, none⟩] : List PDT).zip
            ([⟨⟨some 100000, none⟩, 0, 0⟩] : List Row)).map
          fun p => (p.1.wall, p.2)).Pairwise (fun p q => p.1 < q.1) →
        t.Pairwise fun p q => p.1 < q.1) :=
  claim_C1 "USDC" 1 172800 [⟨⟨some 100000, none⟩, 0, 0⟩] [⟨100000, none⟩]
    .exn (by simp) rfl

/-! ### `load_data_from_db` (utils.py lines 110–168)

The sqlite store is passed explicitly; every operation the function issues
(SELECT, PRAGMA, close) returns the store unchanged, which is exactly the
read-only behaviour of those sqlite statements.  The function returns the
final store, the trace of connection events, and the
`(merged_df, metadata_df)` pair. -/

/-- The slice of a pandas DataFrame that the cache reader manipulates:
the name of the index column (`none` = default RangeIndex), the remaining
column names, whether the index is already a `DatetimeIndex`, and whether
`pd.to_datetime` succeeds on the index values.  For a frame read without
an index column, the two flags describe the column that would become the
index. -/
structure DBFrame where
  indexName : Option String
  cols : List String
  indexIsDatetime : Bool
  indexCoercible : Bool
deriving DecidableEq, Repr

/-- `pd.DataFrame()`, the empty metadata fallback of line 159. -/
def emptyDBFrame : DBFrame := ⟨none, [], false, false⟩

/-- A sqlite store, modelled by the outcome of each operation the code can
issue against it: `connectOk` is whether `sqlite3.connect` succeeds,
`tableNames` the `sqlite_master` listing, `readIndexed` the result of
`pd.read_sql('SELECT * FROM pool_data', index_col='index')`, `readPlain`
the result without `index_col`, and `readMeta` the result of
`pd.read_sql('SELECT * FROM pool_metadata')`; `none` means the read
raises. -/
structure Store where
  connectOk : Bool
  tableNames : List String
  readIndexed : Option DBFrame
  readPlain : Option DBFrame
  readMeta : Option DBFrame
deriving DecidableEq, Repr

/-- Events on the sqlite connection, in program order. -/
inductive DbEvent where
  | openConn : DbEvent
  | queryTables : DbEvent
  | readPoolDataIndexed : DbEvent
  | readPoolDataPlain : DbEvent
  | pragmaTableInfo : DbEvent
  | readMetadata : DbEvent
  | close : DbEvent
deriving DecidableEq, Repr

/-- `SELECT name FROM sqlite_master` (line 125): read-only. -/
def dbQueryTables (s : Store) : Store × List String := (s, s.tableNames)

/-- `read_sql('SELECT * FROM pool_data', index_col='index')` (line 130):
read-only. -/
def dbReadIndexed (s : Store) : Store × Option DBFrame := (s, s.readIndexed)

/-- `read_sql('SELECT * FROM pool_data')` (line 133): read-only. -/
def dbReadPlain (s : Store) : Store × Option DBFrame := (s, s.readPlain)

/-- `read_sql('SELECT * FROM pool_metadata')` (line 156): read-only. -/
def dbReadMeta (s : Store) : Store × Option DBFrame := (s, s.readMeta)

/-- `conn.close()` (line 161): does not modify the store contents. -/
def dbClose (s : Store) : Store := s

/-- Bool substring test used to mirror `'date' in first_col.lower()`. -/
def containsSub (s sub : String) : Bool := decide (sub.toList <:+: s.toList)

/-- Lines 134–139: promote the first column to the index.  The source
tests whether the column name mentions `date` or `time`, but both branches
perform the identical `set_index(first_col)`, so the promotion happens
regardless of the name. -/
def promoteFirst (df : DBFrame) : DBFrame :=
  match df.cols with
  | [] => df
  | c :: rest =>
    if containsSub c.toLower "date" || containsSub c.toLower "time" then
      { df with indexName := some c, cols := rest }
    else
      { df with indexName := some c, cols := rest }

/-- Lines 149–154: if the index is not a `DatetimeIndex`, try to coerce
it; on failure only a warning is printed and the frame is kept as is. -/
def coerceIndex (df : DBFrame) : DBFrame :=
  if df.indexIsDatetime then df
  else if df.indexCoercible then { df with indexIsDatetime := true } else df

/-- Lines 149–164: the tail of `load_data_from_db` once a merged frame has
been obtained — coerce the index, read the metadata (falling back to an
empty frame), close the connection and return. -/
def loadTail (s : Store) (evs : List DbEvent) (merged : DBFrame) :
    Store × List DbEvent × (Option DBFrame × Option DBFrame) :=
  let merged1 := coerceIndex merged
  match dbReadMeta s with
  | (s1, some meta) =>
    (dbClose s1, evs ++ [.readMetadata, .close], (some merged1, some meta))
  | (s1, none) =>
    (dbClose s1, evs ++ [.readMetadata, .close],
     (some merged1, some emptyDBFrame))

/-- `load_data_from_db(db_filename)` (utils.py lines 110–168).  A failing
`sqlite3.connect` reaches the outer `except` and returns `(None, None)`
with no connection event; a structural failure of both `pool_data` reads
prints the PRAGMA diagnosis and returns `(None, None)` (line 147). -/
def load_data_from_db (s : Store) :
    Store × List DbEvent × (Option DBFrame × Option DBFrame) :=
  if s.connectOk then
    let (s1, _tables) := dbQueryTables s
    match dbReadIndexed s1 with
    | (s2, some df) =>
      loadTail s2 [.openConn, .queryTables, .readPoolDataIndexed] df
    | (s2, none) =>
      match dbReadPlain s2 with
      | (s3, some df) =>
        let df1 := if 0 < df.cols.length then promoteFirst df else df
        loadTail s3
          [.openConn, .queryTables, .readPoolDataIndexed, .readPoolDataPlain]
          df1
      | (s3, none) =>
        (s3,
         [.openConn, .queryTables, .readPoolDataIndexed, .readPoolDataPlain,
          .pragmaTableInfo],
         (none, none))
  else
    (s, [], (none, none))

theorem loadTail_merged (s : Store) (evs : List DbEvent) (merged : DBFrame) :
    (loadTail s evs merged).2.2.1 = some (coerceIndex merged) := by
  unfold loadTail dbReadMeta dbClose
  cases s.readMeta <;> rfl

theorem loadTail_trace (s : Store) (evs : List DbEvent) (merged : DBFrame) :
    (loadTail s evs merged).2.1 =
      evs ++ [DbEvent.readMetadata, DbEvent.close] := by
  unfold loadTail dbReadMeta dbClose
  cases s.readMeta <;> rfl

theorem load_indexed_eq (s : Store) (hconn : s.connectOk = true)
    (df : DBFrame) (h : s.readIndexed = some df) :
    load_data_from_db s =
      loadTail s [.openConn, .queryTables, .readPoolDataIndexed] df := by
  unfold load_data_from_db dbQueryTables dbReadIndexed
  simp [hconn, h]

theorem load_plain_eq (s : Store) (hconn : s.connectOk = true)
    (hi : s.readIndexed = none) (df : DBFrame) (h : s.readPlain = some df) :
    load_data_from_db s =
      loadTail s
        [.openConn, .queryTables, .readPoolDataIndexed, .readPoolDataPlain]
        (if 0 < df.cols.length then promoteFirst df else df) := by
  unfold load_data_from_db dbQueryTables dbReadIndexed dbReadPlain
  simp [hconn, hi, h]

theorem load_fail_eq (s : Store) (hconn : s.connectOk = true)
    (hi : s.readIndexed = none) (hp : s.readPlain = none) :
    load_data_from_db s =
      (s,
       [.openConn, .queryTables, .readPoolDataIndexed, .readPoolDataPlain,
        .pragmaTableInfo],
       (none, none)) := by
  unfold load_data_from_db dbQueryTables dbReadIndexed dbReadPlain
  simp [hconn, hi, hp]

/-- C4: the cache reader first attempts the indexed read of `pool_data`;
on structural failure it falls back to the plain read and promotes the
first column to the index regardless of that column's name; and if the
fallback read also fails it returns failure (`None`) for both outputs. -/
theorem claim_C4 (s : Store) (hconn : s.connectOk = true) :
    (∀ df, s.readIndexed = some df →
      (load_data_from_db s).2.2.1 = some (coerceIndex df)) ∧
    (s.readIndexed = none → ∀ df, s.readPlain = some df →
      (load_data_from_db s).2.2.1 =
        some (coerceIndex
          (if 0 < df.cols.length then promoteFirst df else df))) ∧
    (∀ df c rest, df.cols = c :: rest →
      promoteFirst df = { df with indexName := some c, cols := rest }) ∧
    (s.readIndexed = none → s.readPlain = none →
      (load_data_from_db s).2.2 = (none, none)) := by
  refine ⟨?_, ?_, ?_, ?_⟩
  · intro df h
    rw [load_indexed_eq s hconn df h, loadTail_merged]
  · intro hi df h
    rw [load_plain_eq s hconn hi df h, loadTail_merged]
  · intro df c rest h
    simp [promoteFirst, h]
  · intro hi hp
    rw [load_fail_eq s hconn hi hp]

/-- A store whose `pool_data` table reads successfully with its `index`
column, used by witnesses. -/
def sGood : Store :=
  ⟨true, ["pool_data", "pool_metadata"],
   some ⟨some "index", ["0_apy", "0_tvl"], false, true⟩,
   some ⟨none, ["index", "0_apy", "0_tvl"], false, true⟩,
   some ⟨none, ["pool_id", "name", "chain"], false, false⟩⟩

/-- Witness for C4 at the concrete store `sGood`. -/
theorem claim_C4_witness :
    (∀ df, sGood.readIndexed = some df →
      (load_data_from_db sGood).2.2.1 = some (coerceIndex df)) ∧
    (sGood.readIndexed = none → ∀ df, sGood.readPlain = some df →
      (load_data_from_db sGood).2.2.1 =
        some (coerceIndex
          (if 0 < df.cols.length then promoteFirst df else df))) ∧
    (∀ df c rest, df.cols = c :: rest →
      promoteFirst df = { df with indexName := some c, cols := rest }) ∧
    (sGood.readIndexed = none → sGood.readPlain = none →
      (load_data_from_db sGood).2.2 = (none, none)) :=
  claim_C4 sGood rfl

/-- Counterexample to C3 as stated: a store that opens but whose
`pool_data` table fails both read strategies.  The code takes the early
`return None, None` of line 147, and the trace shows the connection is
never closed on that path. -/
theorem claim_C3_counterexample :
    (load_data_from_db
        ⟨true, ["pool_data", "pool_metadata"], none, none, none⟩).2.2
      = (none, none) ∧
    DbEvent.close ∉
      (load_data_from_db
        ⟨true, ["pool_data", "pool_metadata"], none, none, none⟩).2.1 := by
  decide

/-- C3 (amended): on every execution path in which the store was opened
and the `pool_data` read succeeded by either strategy, the connection is
closed before the function returns (the close is the final connection
event); on the structural-failure path that returns `(None, None)` the
function returns without closing. -/
theorem claim_C3 (s : Store) (hconn : s.connectOk = true)
    (hread : s.readIndexed ≠ none ∨ s.readPlain ≠ none) :
    DbEvent.close ∈ (load_data_from_db s).2.1 ∧
    (load_data_from_db s).2.1.getLast? = some DbEvent.close := by
  cases hi : s.readIndexed with
  | some df =>
    rw [load_indexed_eq s hconn df hi, loadTail_trace]
    exact ⟨by decide, by decide⟩
  | none =>
    cases hp : s.readPlain with
    | some df =>
      rw [load_plain_eq s hconn hi df hp, loadTail_trace]
      exact ⟨by decide, by decide⟩
    | none =>
      rcases hread with h | h
      · exact absurd hi h
      · exact absurd hp h

/-- Witness for the amended C3 at the concrete store `sGood`. -/
theorem claim_C3_witness :
    DbEvent.close ∈ (load_data_from_db sGood).2.1 ∧
    (load_data_from_db sGood).2.1.getLast? = some DbEvent.close :=
  claim_C3 sGood rfl (Or.inl (by simp [sGood]))

/-- C8: every sqlite operation issued by the cache reader (SELECTs, a
PRAGMA, close) leaves the store unchanged, so calling it twice on an
unmodified store returns identical `(merged_df, metadata_df)` pairs. -/
theorem claim_C8 (s : Store) :
    (load_data_from_db s).1 = s ∧
    (load_data_from_db ((load_data_from_db s).1)).2.2
      = (load_data_from_db s).2.2 := by
  have h1 : (load_data_from_db s).1 = s := by
    obtain ⟨c, t, ri, rp, rm⟩ := s
    unfold load_data_from_db loadTail dbQueryTables dbReadIndexed dbReadPlain
      dbReadMeta dbClose
    cases c <;> cases ri <;> cases rp <;> cases rm <;> rfl
  exact ⟨h1, by rw [h1]⟩

end LiveAnalytics
